import Mathlib

/-! Verification of the next-race service in `app.py` (WhatTimeIsTheF1).

Modelling conventions:
* Python strings are modelled as `List Char` (`PyStr`): `s.endswith("Z")` is a
  check on the last character, `"+" in s` / `"Z" in s` are character
  containment, `s[:-1]` is `dropLast`, `s.replace("Z", "+00:00")` replaces
  every occurrence of the character.
* `datetime.fromisoformat` is external library code; it is modelled as an
  oracle parameter `f : PyStr → Option Int` giving, for each string, the UTC
  instant it parses to (`none` = `ValueError`).  Aware datetimes compare by
  instant, so `start_time > now` is integer comparison.  `start_time.isoformat()`
  is a function of the datetime, hence of the string that parsed successfully;
  it is modelled as an oracle `i : PyStr → PyStr` applied to that string.
* `datetime.now(timezone.utc)` is the `now : Int` parameter.
* The JSON feed payload is modelled structurally: `dict.get(k, d)` on the fixed
  schema becomes `Option` fields with defaults.
* The one-hour cache window (`timedelta(hours=1)`) is 3600 seconds.
-/

/-- Python strings as character lists. -/
abbrev PyStr := List Char

/-- The literal `"+00:00"` appended by normalization (app.py lines 142, 144). -/
def plusUTC : PyStr := "+00:00".toList

/-- Python `s.endswith("Z")`: the last character is `Z`. -/
def endsWithZ (s : PyStr) : Bool := s.getLast? == some 'Z'

/-- Python `s.replace("Z", "+00:00")`: every `Z` becomes `+00:00` (app.py line 150). -/
def replaceZ : PyStr → PyStr
  | [] => []
  | c :: rest => (if c == 'Z' then plusUTC else [c]) ++ replaceZ rest

/-- A race entry of the feed: `dict.get` fields of the fixed schema
(app.py lines 154-159), plus the sessions mapping (line 133). -/
structure Race where
  name : Option PyStr
  location : Option PyStr
  country : Option PyStr
  round : Option Int
  url : Option PyStr
  sessions : List (PyStr × PyStr)
deriving DecidableEq

/-- The feed payload: `data.get("races", [])` (app.py line 129); `none` models a
top-level object with no `races` key. -/
structure FeedPayload where
  races : Option (List Race)
deriving DecidableEq

/-- The key of the race session (app.py line 136). -/
def gpKey : PyStr := "gp".toList

/-- Python `race.get("sessions", {}).get("gp")` (app.py lines 133, 136). -/
def gpOf (r : Race) : Option PyStr :=
  (r.sessions.find? (fun p => p.1 == gpKey)).map Prod.snd

/-- Timestamp normalization of the main scan (app.py lines 141-144):
a trailing `Z` becomes `+00:00`; else if the string contains neither `+` nor
`Z`, `+00:00` is appended; else it is unchanged. -/
def normalizeTs (s : PyStr) : PyStr :=
  if endsWithZ s then s.dropLast ++ plusUTC
  else if !(s.contains '+') && !(s.contains 'Z') then s ++ plusUTC
  else s

/-- Timestamp normalization of the stale-cache scan (app.py lines 178-181):
identical except the second branch tests only that `+` is absent. -/
def normalizeStale (s : PyStr) : PyStr :=
  if endsWithZ s then s.dropLast ++ plusUTC
  else if !(s.contains '+') then s ++ plusUTC
  else s

/-- The parse attempt with its fallback (app.py lines 146-150 and 183-186):
`fromisoformat` on the normalized string, and on `ValueError` once more on the
string with every `Z` replaced by `+00:00`.  Returns the string that parsed
together with its instant; `none` models the `ValueError` escaping the inner
handler. -/
def tryParse (f : PyStr → Option Int) (s : PyStr) : Option (PyStr × Int) :=
  match f s with
  | some t => some (s, t)
  | none =>
    match f (replaceZ s) with
    | some t => some (replaceZ s, t)
    | none => none

/-- The race summary built for the response (app.py lines 153-160). -/
structure RaceInfo where
  name : PyStr
  location : PyStr
  country : PyStr
  startUtc : PyStr
  round : Option Int
  url : PyStr
deriving DecidableEq

/-- The projection of a selected race (app.py lines 153-160): absent fields get
defaults; `startUtc` is `start_time.isoformat()`, a function of the string `st.1`
that parsed. -/
def projectRace (i : PyStr → PyStr) (r : Race) (st : PyStr × Int) : RaceInfo :=
  { name := r.name.getD "Unknown Race".toList
  , location := r.location.getD "Unknown Location".toList
  , country := r.country.getD []
  , startUtc := i st.1
  , round := r.round
  , url := r.url.getD [] }

/-- Outcome of a scan over the race list: a selected race, exhaustion, or a
`ValueError` escaping the loop after both parse attempts failed. -/
inductive ScanOutcome where
  | found (info : RaceInfo)
  | exhausted
  | parseFail
deriving DecidableEq

/-- The main scan loop (app.py lines 132-163): skip races whose `gp` session is
absent or empty (falsy); normalizeTs and parse with fallback; a double parse
failure raises out of the loop; the first race strictly after `now` is
returned. -/
def scanRaces (f : PyStr → Option Int) (i : PyStr → PyStr) (now : Int) :
    List Race → ScanOutcome
  | [] => .exhausted
  | r :: rest =>
    match gpOf r with
    | none => scanRaces f i now rest
    | some g =>
      if g.isEmpty then scanRaces f i now rest
      else
        match tryParse f (normalizeTs g) with
        | none => .parseFail
        | some st => if now < st.2 then .found (projectRace i r st) else scanRaces f i now rest

/-- The stale-cache scan loop (app.py lines 172-197): same shape, but with the
stale-branch normalization. -/
def scanStale (f : PyStr → Option Int) (i : PyStr → PyStr) (now : Int) :
    List Race → ScanOutcome
  | [] => .exhausted
  | r :: rest =>
    match gpOf r with
    | none => scanStale f i now rest
    | some g =>
      if g.isEmpty then scanStale f i now rest
      else
        match tryParse f (normalizeStale g) with
        | none => .parseFail
        | some st => if now < st.2 then .found (projectRace i r st) else scanStale f i now rest

/-- The module-level cache (app.py line 13): `{"data": None, "timestamp": None}`. -/
structure CacheState where
  data : Option FeedPayload
  timestamp : Option Int
deriving DecidableEq

/-- How one upstream fetch attempt ends: `httpx.HTTPError` covers timeout and
non-2xx (`raise_for_status`); a body that is not JSON raises
`json.JSONDecodeError`, which is a `ValueError`, not an `httpx.HTTPError`. -/
inductive FetchErr where
  | http
  | json
deriving DecidableEq

/-- The result of `fetch_race_data()` (app.py lines 96-101), supplied as input:
the upstream response is external. -/
inductive FetchOutcome where
  | success (p : FeedPayload)
  | failure (e : FetchErr)
deriving DecidableEq

/-- The cache manager `get_race_data` (app.py lines 104-115).  Returns the
payload (or the propagated fetch exception) paired with the resulting cache
state, plus the number of upstream fetches performed.  A failed fetch raises
before either assignment, leaving the cache unchanged. -/
def get_race_data (fetch : FetchOutcome) (now : Int) (c : CacheState) :
    (Except FetchErr (FeedPayload × CacheState)) × Nat :=
  match c.data, c.timestamp with
  | some d, some ts =>
    if now - ts > 3600 then
      match fetch with
      | .success p => (.ok (p, ⟨some p, some now⟩), 1)
      | .failure e => (.error e, 1)
    else (.ok (d, c), 0)
  | _, _ =>
    match fetch with
    | .success p => (.ok (p, ⟨some p, some now⟩), 1)
    | .failure e => (.error e, 1)

/-- The HTTP result of `GET /api/next`: one of the two documented 200 bodies,
or an unhandled exception that FastAPI surfaces as a 500. -/
inductive Response where
  | okRace (info : RaceInfo)
  | seasonOver
  | http500
deriving DecidableEq

/-- The endpoint `get_next_race` (app.py lines 118-203), returning the response
and the cache state after the request.
* `fetch` succeeds: scan the returned payload; a `ValueError` escaping the
  scan is caught by `except Exception` (line 200) and yields `season_over`.
* `fetch` raises `httpx.HTTPError`: caught at line 165; if cached data exists
  it is re-scanned; a `ValueError` raised inside this `except` clause is NOT
  caught by the later `except Exception` of the same `try`, so it escapes as
  a 500.  With no cached data the branch falls through to `season_over`.
* `fetch` raises `JSONDecodeError` (malformed body): not an `httpx.HTTPError`,
  so it reaches `except Exception` directly and yields `season_over` without
  consulting the cache. -/
def get_next_race (f : PyStr → Option Int) (i : PyStr → PyStr)
    (fetch : FetchOutcome) (now : Int) (c : CacheState) : Response × CacheState :=
  match get_race_data fetch now c with
  | (.ok (data, cNew), _) =>
    match scanRaces f i now (data.races.getD []) with
    | .found info => (.okRace info, cNew)
    | .exhausted => (.seasonOver, cNew)
    | .parseFail => (.seasonOver, cNew)
  | (.error .http, _) =>
    match c.data with
    | some d =>
      match scanStale f i now (d.races.getD []) with
      | .found info => (.okRace info, c)
      | .exhausted => (.seasonOver, c)
      | .parseFail => (.http500, c)
    | none => (.seasonOver, c)
  | (.error .json, _) => (.seasonOver, c)

/-- Cache states reachable from the initial module state through requests. -/
inductive Reachable : CacheState → Prop where
  | init : Reachable ⟨none, none⟩
  | step (f : PyStr → Option Int) (i : PyStr → PyStr) (fetch : FetchOutcome)
      (now : Int) (c : CacheState) : Reachable c →
      Reachable (get_next_race f i fetch now c).2

/-- Whether a race satisfies the spec's selection criterion: the `gp` session
timestamp exists (and is not falsy), parses (with the code's two attempts), and
is strictly after `now`. -/
def isFutureCandidate (f : PyStr → Option Int) (now : Int) (r : Race) : Bool :=
  match gpOf r with
  | none => false
  | some g =>
    if g.isEmpty then false
    else
      match tryParse f (normalizeTs g) with
      | some st => now < st.2
      | none => false

/-- Whether a race is harmless for the scan: its `gp` session is absent, empty,
or parses with the code's two attempts (so the scan never raises on it). -/
def gpParses (f : PyStr → Option Int) (r : Race) : Bool :=
  match gpOf r with
  | none => true
  | some g => g.isEmpty || (tryParse f (normalizeTs g)).isSome

/-- The response the stale-cache branch produces for each outcome of the
re-scan (app.py lines 165-199): a found race, fall-through to `season_over`,
or the escaped `ValueError` surfacing as a 500. -/
def staleRespOf : ScanOutcome → Response
  | .found info => .okRace info
  | .exhausted => .seasonOver
  | .parseFail => .http500




/-- Appending `"+00:00"` yields a string not ending in `Z`. -/
theorem endsWithZ_append_plusUTC (s : PyStr) : endsWithZ (s ++ plusUTC) = false := by
  have hne : plusUTC ≠ [] := by decide
  have h : (s ++ plusUTC).getLast? = some '0' := by
    rw [List.getLast?_append_of_ne_nil s hne]
    decide
  simp [endsWithZ, h]

/-- Appending `"+00:00"` yields a string containing `+`. -/
theorem contains_plus_append_plusUTC (s : PyStr) : (s ++ plusUTC).contains '+' = true := by
  have h : '+' ∈ s ++ plusUTC := List.mem_append_right s (by decide)
  simpa [List.contains] using h

/-- Every normalization output is either the input itself or some string with
`"+00:00"` appended. -/
theorem normalizeTs_cases (s : PyStr) :
    normalizeTs s = s ∨ ∃ u, normalizeTs s = u ++ plusUTC := by
  unfold normalizeTs
  cases h1 : endsWithZ s with
  | true => exact Or.inr ⟨s.dropLast, by simp⟩
  | false =>
    cases h2 : !(s.contains '+') && !(s.contains 'Z') with
    | true => exact Or.inr ⟨s, by simp⟩
    | false => exact Or.inl (by simp)

/-- Strings ending in `"+00:00"` are fixed points of normalization. -/
theorem normalizeTs_fixes_append (u : PyStr) : normalizeTs (u ++ plusUTC) = u ++ plusUTC := by
  unfold normalizeTs
  rw [endsWithZ_append_plusUTC, contains_plus_append_plusUTC]
  simp

/-- The normalization function is idempotent as a string transformation. -/
theorem normalizeTs_idem (s : PyStr) : normalizeTs (normalizeTs s) = normalizeTs s := by
  rcases normalizeTs_cases s with h | ⟨u, h⟩
  · rw [h]; exact h
  · rw [h]; exact normalizeTs_fixes_append u

/-- C7: timestamp normalization is idempotent: normalizing any string twice
yields the same string as normalizing it once; in particular the code's parse
attempt (and so the parsed instant) is identical after one or two rounds of
normalization.  This holds for all strings, hence in particular for
offset-bearing ones. -/
theorem normalization_idempotent (f : PyStr → Option Int) (s : PyStr) :
    normalizeTs (normalizeTs s) = normalizeTs s ∧
    tryParse f (normalizeTs (normalizeTs s)) = tryParse f (normalizeTs s) :=
  ⟨normalizeTs_idem s, by rw [normalizeTs_idem]⟩

/-- C2 counterexample: a timestamp carrying an explicit `-05:00` offset is NOT
left unchanged by normalization: since it contains no `+` and no `Z`, the code
appends `+00:00` to it (app.py line 143 tests only for `+`). -/
theorem negative_offset_changed_cex :
    normalizeTs "2026-03-08T09:00:00-05:00".toList ≠ "2026-03-08T09:00:00-05:00".toList ∧
    normalizeTs "2026-03-08T09:00:00-05:00".toList
      = "2026-03-08T09:00:00-05:00+00:00".toList := by
  constructor <;> decide

/-- C2 amended: a string containing a `+` (in particular a `+HH:MM` offset)
and not ending in `Z` is left unchanged by normalization; a string containing
neither `+` nor `Z` (in particular one whose only offset is `-HH:MM`) gets
`+00:00` appended. -/
theorem offset_passthrough_amended (s t : PyStr)
    (hz : endsWithZ s = false) (hp : s.contains '+' = true)
    (tz : endsWithZ t = false) (tp : t.contains '+' = false)
    (tc : t.contains 'Z' = false) :
    normalizeTs s = s ∧ normalizeTs t = t ++ plusUTC := by
  constructor
  · unfold normalizeTs
    rw [hz, hp]
    simp
  · unfold normalizeTs
    rw [tz, tp, tc]
    simp

/-- Witness for the amended C2 at concrete offset-bearing timestamps. -/
theorem offset_passthrough_amended_witness :
    normalizeTs "2026-03-08T09:00:00+02:00".toList = "2026-03-08T09:00:00+02:00".toList ∧
    normalizeTs "2026-11-22T14:30:00-03:00".toList
      = "2026-11-22T14:30:00-03:00".toList ++ plusUTC :=
  offset_passthrough_amended _ _ (by decide) (by decide) (by decide) (by decide) (by decide)

/-- C9: a payload whose top-level object has no `races` key is treated as an
empty race list, and the endpoint answers `season_over`. -/
theorem missing_races_key_season_over (f : PyStr → Option Int) (i : PyStr → PyStr)
    (now : Int) (p : FeedPayload) (h : p.races = none) :
    (get_next_race f i (.success p) now ⟨none, none⟩).1 = .seasonOver := by
  simp [get_next_race, get_race_data, h, scanRaces]

/-- Witness for C9 at a concrete races-less payload. -/
theorem missing_races_key_season_over_witness :
    (get_next_race (fun _ => none) id (.success ⟨none⟩) 0 ⟨none, none⟩).1 = .seasonOver :=
  missing_races_key_season_over (fun _ => none) id 0 ⟨none⟩ rfl

/-- C10: a selected race with absent name, location, country, url and round is
still returned, with the defaults `"Unknown Race"`, `"Unknown Location"`, empty
country, empty url, and `none` (null) round substituted. -/
theorem default_fields_projection (f : PyStr → Option Int) (i : PyStr → PyStr)
    (now : Int) (r : Race) (rest : List Race) (g : PyStr) (st : PyStr × Int)
    (hname : r.name = none) (hloc : r.location = none) (hcountry : r.country = none)
    (hurl : r.url = none) (hround : r.round = none)
    (hg : gpOf r = some g) (hne : g.isEmpty = false)
    (hp : tryParse f (normalizeTs g) = some st) (hf : now < st.2) :
    scanRaces f i now (r :: rest) =
      .found ⟨"Unknown Race".toList, "Unknown Location".toList, [], i st.1, none, []⟩ := by
  unfold scanRaces
  rw [hg]
  simp [hne, hp, hf, projectRace, hname, hloc, hcountry, hurl, hround]

/-- Witness for C10: a race with only a `gp` session and no other fields is
returned with all defaults. -/
theorem default_fields_projection_witness :
    scanRaces (fun s => if s = "2099-01-01T00:00:00+00:00".toList then some 4070908800 else none)
      id 0 [⟨none, none, none, none, none, [(gpKey, "2099-01-01T00:00:00Z".toList)]⟩] =
      .found ⟨"Unknown Race".toList, "Unknown Location".toList, [],
        "2099-01-01T00:00:00+00:00".toList, none, []⟩ :=
  default_fields_projection
    (fun s => if s = "2099-01-01T00:00:00+00:00".toList then some 4070908800 else none)
    id 0 ⟨none, none, none, none, none, [(gpKey, "2099-01-01T00:00:00Z".toList)]⟩ []
    "2099-01-01T00:00:00Z".toList ("2099-01-01T00:00:00+00:00".toList, 4070908800)
    rfl rfl rfl rfl rfl (by decide) (by decide) (by decide) (by decide)

/-- C1 amended: a `gp` timestamp that fails both parse attempts is not skipped:
the `ValueError` aborts the scan (no later race is considered), and in the main
path the endpoint's catch-all converts the whole request to `season_over`. -/
theorem parse_failure_aborts_scan (f : PyStr → Option Int) (i : PyStr → PyStr)
    (now : Int) (r : Race) (rest : List Race) (g : PyStr)
    (hg : gpOf r = some g) (hne : g.isEmpty = false)
    (hfail : tryParse f (normalizeTs g) = none) :
    scanRaces f i now (r :: rest) = .parseFail ∧
    (get_next_race f i (.success ⟨some (r :: rest)⟩) now ⟨none, none⟩).1 = .seasonOver := by
  have hscan : scanRaces f i now (r :: rest) = .parseFail := by
    unfold scanRaces
    rw [hg]
    simp [hne, hfail]
  exact ⟨hscan, by simp [get_next_race, get_race_data, hscan]⟩

/-- Witness for the amended C1 at a concrete unparsable timestamp. -/
theorem parse_failure_aborts_scan_witness :
    scanRaces (fun _ => none) id 0
      [⟨none, none, none, none, none, [(gpKey, "not-a-date".toList)]⟩] = .parseFail ∧
    (get_next_race (fun _ => none) id
      (.success ⟨some [⟨none, none, none, none, none, [(gpKey, "not-a-date".toList)]⟩]⟩)
      0 ⟨none, none⟩).1 = .seasonOver :=
  parse_failure_aborts_scan (fun _ => none) id 0
    ⟨none, none, none, none, none, [(gpKey, "not-a-date".toList)]⟩ [] "not-a-date".toList
    (by decide) (by decide) (by decide)

/-- C1 counterexample: with a doubly-unparsable `gp` in the first race and a
parseable future race after it, the scan aborts with the escaped `ValueError`
and the request answers `season_over`, although scanning the remaining race
alone would find it: the failure aborts the scan and changes the result for
the other races. -/
theorem parse_failure_skip_cex :
    scanRaces (fun s => if s = "2099-06-06T00:00:00+00:00".toList then some 4085251200 else none)
      id 0
      [⟨none, none, none, none, none, [(gpKey, "XX".toList)]⟩,
       ⟨none, none, none, none, none, [(gpKey, "2099-06-06T00:00:00Z".toList)]⟩]
      = .parseFail ∧
    scanRaces (fun s => if s = "2099-06-06T00:00:00+00:00".toList then some 4085251200 else none)
      id 0
      [⟨none, none, none, none, none, [(gpKey, "2099-06-06T00:00:00Z".toList)]⟩]
      = .found ⟨"Unknown Race".toList, "Unknown Location".toList, [],
          "2099-06-06T00:00:00+00:00".toList, none, []⟩ ∧
    (get_next_race
      (fun s => if s = "2099-06-06T00:00:00+00:00".toList then some 4085251200 else none)
      id
      (.success ⟨some [⟨none, none, none, none, none, [(gpKey, "XX".toList)]⟩,
        ⟨none, none, none, none, none, [(gpKey, "2099-06-06T00:00:00Z".toList)]⟩]⟩)
      0 ⟨none, none⟩).1 = .seasonOver := by
  refine ⟨by decide, by decide, by decide⟩

/-- C5 code bug: when the upstream fetch raises an `httpx.HTTPError` and the
stale cache holds a race whose `gp` fails both parse attempts, the `ValueError`
raised inside the `except httpx.HTTPError` clause (app.py line 186) is not
caught by the later `except Exception` clause of the same `try`, so the
endpoint surfaces an HTTP 500 instead of one of the two documented shapes. -/
theorem stale_scan_http500_bug :
    get_next_race (fun _ => none) id (.failure .http) 7200
      ⟨some ⟨some [⟨none, none, none, none, none, [(gpKey, "QQ".toList)]⟩]⟩, some 0⟩
      = (.http500,
         ⟨some ⟨some [⟨none, none, none, none, none, [(gpKey, "QQ".toList)]⟩]⟩, some 0⟩) := by
  decide

/-- C4 amended: when the upstream fetch raises an `httpx.HTTPError` (timeout or
non-2xx) and a cached payload exists (necessarily stale for the fetch to have
been attempted), the cache is left unchanged and the response is computed by
re-scanning the cached payload; a malformed-JSON body raises a `ValueError`
instead, which also leaves the cache unchanged but yields `season_over`
without consulting the cached payload. -/
theorem stale_serve_amended (f : PyStr → Option Int) (i : PyStr → PyStr) (now : Int)
    (p : FeedPayload) (ts : Int) (hstale : now - ts > 3600) :
    (get_next_race f i (.failure .http) now ⟨some p, some ts⟩).2 = ⟨some p, some ts⟩ ∧
    (get_next_race f i (.failure .http) now ⟨some p, some ts⟩).1 =
      staleRespOf (scanStale f i now (p.races.getD [])) ∧
    get_next_race f i (.failure .json) now ⟨some p, some ts⟩
      = (.seasonOver, ⟨some p, some ts⟩) := by
  have hgrd : ∀ e, get_race_data (.failure e) now ⟨some p, some ts⟩ = (.error e, 1) := by
    intro e
    simp [get_race_data, hstale]
  refine ⟨?_, ?_, ?_⟩
  · cases h : scanStale f i now (p.races.getD []) <;>
      simp [get_next_race, hgrd, h]
  · cases h : scanStale f i now (p.races.getD []) <;>
      simp [get_next_race, hgrd, h, staleRespOf]
  · simp [get_next_race, hgrd]

/-- Witness for the amended C4 at a concrete stale cache. -/
theorem stale_serve_amended_witness :
    (get_next_race (fun _ => none) id (.failure .http) 7200 ⟨some ⟨some []⟩, some 0⟩).2
      = ⟨some ⟨some []⟩, some 0⟩ ∧
    (get_next_race (fun _ => none) id (.failure .http) 7200 ⟨some ⟨some []⟩, some 0⟩).1
      = staleRespOf (scanStale (fun _ => none) id 7200 ((⟨some []⟩ : FeedPayload).races.getD [])) ∧
    get_next_race (fun _ => none) id (.failure .json) 7200 ⟨some ⟨some []⟩, some 0⟩
      = (.seasonOver, ⟨some ⟨some []⟩, some 0⟩) :=
  stale_serve_amended (fun _ => none) id 7200 ⟨some []⟩ 0 (by decide)

/-- C4 counterexample: a malformed upstream body (a `ValueError`, not an
`httpx.HTTPError`) with a cached payload present yields `season_over` without
serving the cached payload, although re-scanning that cached payload would
find a future race. -/
theorem malformed_body_no_stale_cex :
    get_next_race
      (fun s => if s = "2096-03-03T00:00:00+00:00".toList then some 3982003200 else none)
      id (.failure .json) 7200
      ⟨some ⟨some [⟨none, none, none, none, none, [(gpKey, "2096-03-03T00:00:00Z".toList)]⟩]⟩,
        some 0⟩
      = (.seasonOver,
         ⟨some ⟨some [⟨none, none, none, none, none, [(gpKey, "2096-03-03T00:00:00Z".toList)]⟩]⟩,
          some 0⟩) ∧
    scanStale
      (fun s => if s = "2096-03-03T00:00:00+00:00".toList then some 3982003200 else none)
      id 7200 [⟨none, none, none, none, none, [(gpKey, "2096-03-03T00:00:00Z".toList)]⟩]
      = .found ⟨"Unknown Race".toList, "Unknown Location".toList, [],
          "2096-03-03T00:00:00+00:00".toList, none, []⟩ := by
  exact ⟨by decide, by decide⟩

/-- C6: with a present cache at most one hour old the cached payload is
returned, the state is unchanged and no fetch happens; with an absent payload
or a strictly-older-than-one-hour cache exactly one fetch happens, and a
successful fetch replaces both the payload and the fetch timestamp. -/
theorem cache_freshness_policy (fetch : FetchOutcome) (now : Int) (c : CacheState) :
    (∀ d ts, c.data = some d → c.timestamp = some ts → now - ts ≤ 3600 →
      get_race_data fetch now c = (.ok (d, c), 0)) ∧
    ((c.data = none ∨ ∃ ts, c.timestamp = some ts ∧ now - ts > 3600) →
      (get_race_data fetch now c).2 = 1 ∧
      ∀ p, fetch = .success p →
        (get_race_data fetch now c).1 = .ok (p, ⟨some p, some now⟩)) := by
  obtain ⟨cd, ct⟩ := c
  constructor
  · rintro d ts hd ht hfresh
    simp only [] at hd ht
    subst hd
    subst ht
    simp [get_race_data, show ¬(now - ts > 3600) from by omega]
  · rintro (hd | ⟨ts, ht, hstale⟩)
    · simp only [] at hd
      subst hd
      cases ct <;> cases fetch <;> simp [get_race_data]
    · simp only [] at ht
      subst ht
      cases cd <;> cases fetch <;> simp [get_race_data, hstale]

/-- Witness for C6: a stale cache with a successful fetch performs exactly one
fetch and replaces both fields. -/
theorem cache_freshness_policy_witness :
    (get_race_data (.success ⟨none⟩) 5000 ⟨some ⟨some []⟩, some 0⟩).2 = 1 ∧
    (get_race_data (.success ⟨none⟩) 5000 ⟨some ⟨some []⟩, some 0⟩).1
      = .ok (⟨none⟩, ⟨some ⟨none⟩, some 5000⟩) := by
  have h := (cache_freshness_policy (.success ⟨none⟩) 5000 ⟨some ⟨some []⟩, some 0⟩).2
    (Or.inr ⟨0, rfl, by decide⟩)
  exact ⟨h.1, h.2 ⟨none⟩ rfl⟩

/-- Unfolding of the main scan on a non-empty race list. -/
theorem scanRaces_cons (f : PyStr → Option Int) (i : PyStr → PyStr) (now : Int)
    (r : Race) (rest : List Race) :
    scanRaces f i now (r :: rest) =
      (match gpOf r with
       | none => scanRaces f i now rest
       | some g =>
         if g.isEmpty then scanRaces f i now rest
         else
           match tryParse f (normalizeTs g) with
           | none => .parseFail
           | some st =>
             if now < st.2 then .found (projectRace i r st) else scanRaces f i now rest) := rfl

/-- Decomposition of a satisfied selection criterion. -/
theorem isFutureCandidate_true (f : PyStr → Option Int) (now : Int) (a : Race)
    (h : isFutureCandidate f now a = true) :
    ∃ g st, gpOf a = some g ∧ g.isEmpty = false ∧
      tryParse f (normalizeTs g) = some st ∧ now < st.2 := by
  cases hgp : gpOf a with
  | none => simp [isFutureCandidate, hgp] at h
  | some g =>
    cases hE : g.isEmpty with
    | true => simp [isFutureCandidate, hgp, hE] at h
    | false =>
      cases hst : tryParse f (normalizeTs g) with
      | none => simp [isFutureCandidate, hgp, hE, hst] at h
      | some st =>
        simp [isFutureCandidate, hgp, hE, hst] at h
        exact ⟨g, st, rfl, hE, hst, h⟩

/-- The scan selects the head race when its `gp` parses to a future instant. -/
theorem scanRaces_found (f : PyStr → Option Int) (i : PyStr → PyStr) (now : Int)
    (a : Race) (rest : List Race) (g : PyStr) (st : PyStr × Int)
    (hgp : gpOf a = some g) (hE : g.isEmpty = false)
    (hst : tryParse f (normalizeTs g) = some st) (hlt : now < st.2) :
    scanRaces f i now (a :: rest) = .found (projectRace i a st) := by
  rw [scanRaces_cons, hgp]
  simp [hE, hst, hlt]

/-- A race that is not a future candidate, but whose `gp` is absent, empty, or
parses, is skipped by the scan. -/
theorem scanRaces_skip (f : PyStr → Option Int) (i : PyStr → PyStr) (now : Int)
    (a : Race) (rest : List Race)
    (hcand : isFutureCandidate f now a = false) (ha : gpParses f a = true) :
    scanRaces f i now (a :: rest) = scanRaces f i now rest := by
  rw [scanRaces_cons]
  cases hgp : gpOf a with
  | none => rfl
  | some g =>
    cases hE : g.isEmpty with
    | true => simp [hE]
    | false =>
      simp [gpParses, hgp, hE, Option.isSome_iff_exists] at ha
      obtain ⟨s2, t2, hst⟩ := ha
      simp [isFutureCandidate, hgp, hE, hst] at hcand
      simp [hE, hst, hcand]

/-- C3 amended: provided every `gp` timestamp in the feed is absent, empty, or
parses with the code's two attempts, the resolver returns exactly the first
race in feed order whose `gp` exists, parses, and is strictly after `now`, and
scan exhaustion (`season_over`) when no such race exists.  (Without that
proviso the claim fails: an unparsable `gp` aborts the scan; see the
counterexample.) -/
theorem resolver_first_future (f : PyStr → Option Int) (i : PyStr → PyStr) (now : Int)
    (races : List Race) (hok : races.all (gpParses f) = true) :
    (races.find? (isFutureCandidate f now) = none → scanRaces f i now races = .exhausted) ∧
    (∀ r, races.find? (isFutureCandidate f now) = some r →
      ∃ g st, gpOf r = some g ∧ tryParse f (normalizeTs g) = some st ∧ now < st.2 ∧
        scanRaces f i now races = .found (projectRace i r st)) := by
  induction races with
  | nil =>
    refine ⟨fun _ => rfl, fun r h => ?_⟩
    simp [List.find?] at h
  | cons a rest ih =>
    rw [List.all_cons, Bool.and_eq_true] at hok
    obtain ⟨ha, hrest⟩ := hok
    have ihr := ih hrest
    cases hcand : isFutureCandidate f now a with
    | true =>
      constructor
      · intro hfind
        rw [List.find?_cons_of_pos _ hcand] at hfind
        exact Option.noConfusion hfind
      · intro r hfind
        rw [List.find?_cons_of_pos _ hcand] at hfind
        obtain rfl : a = r := by injection hfind
        obtain ⟨g, st, hgp, hE, hst, hlt⟩ := isFutureCandidate_true f now a hcand
        exact ⟨g, st, hgp, hst, hlt, scanRaces_found f i now a rest g st hgp hE hst hlt⟩
    | false =>
      have hskip := scanRaces_skip f i now a rest hcand ha
      have hneg : ¬ isFutureCandidate f now a = true := by simp [hcand]
      constructor
      · intro hfind
        rw [List.find?_cons_of_neg _ hneg] at hfind
        rw [hskip]
        exact ihr.1 hfind
      · intro r hfind
        rw [List.find?_cons_of_neg _ hneg] at hfind
        obtain ⟨g, st, h1, h2, h3, h4⟩ := ihr.2 r hfind
        exact ⟨g, st, h1, h2, h3, by rw [hskip]; exact h4⟩

/-- Witness for the amended C3: with a past race then a future race, the scan
selects the future one, which is the first satisfying the criterion. -/
theorem resolver_first_future_witness :
    ∃ g st,
      gpOf ⟨none, none, none, none, none, [(gpKey, "2097-04-04T00:00:00Z".toList)]⟩ = some g ∧
      tryParse
        (fun s => if s = "1970-01-02T00:00:00+00:00".toList then some 86400 else
          if s = "2097-04-04T00:00:00+00:00".toList then some 4016304000 else none)
        (normalizeTs g) = some st ∧ (100000 : Int) < st.2 ∧
      scanRaces
        (fun s => if s = "1970-01-02T00:00:00+00:00".toList then some 86400 else
          if s = "2097-04-04T00:00:00+00:00".toList then some 4016304000 else none)
        id 100000
        [⟨none, none, none, none, none, [(gpKey, "1970-01-02T00:00:00Z".toList)]⟩,
         ⟨none, none, none, none, none, [(gpKey, "2097-04-04T00:00:00Z".toList)]⟩]
        = .found (projectRace id
            ⟨none, none, none, none, none, [(gpKey, "2097-04-04T00:00:00Z".toList)]⟩ st) :=
  (resolver_first_future
    (fun s => if s = "1970-01-02T00:00:00+00:00".toList then some 86400 else
      if s = "2097-04-04T00:00:00+00:00".toList then some 4016304000 else none)
    id 100000
    [⟨none, none, none, none, none, [(gpKey, "1970-01-02T00:00:00Z".toList)]⟩,
     ⟨none, none, none, none, none, [(gpKey, "2097-04-04T00:00:00Z".toList)]⟩]
    (by decide)).2
    ⟨none, none, none, none, none, [(gpKey, "2097-04-04T00:00:00Z".toList)]⟩ (by decide)

/-- C3 counterexample: the feed holds a race satisfying the selection
criterion (`gp` exists, parses, is strictly after `now`), yet the endpoint
answers `season_over` because an earlier race with an unparsable `gp` aborts
the scan — the resolver neither returns the first selectable race nor reserves
`season_over` for feeds with no selectable race. -/
theorem resolver_first_future_cex :
    isFutureCandidate
      (fun s => if s = "2098-05-05T00:00:00+00:00".toList then some 4050604800 else none) 0
      ⟨none, none, none, none, none, [(gpKey, "2098-05-05T00:00:00Z".toList)]⟩ = true ∧
    (get_next_race
      (fun s => if s = "2098-05-05T00:00:00+00:00".toList then some 4050604800 else none)
      id
      (.success ⟨some [⟨none, none, none, none, none, [(gpKey, "YY".toList)]⟩,
        ⟨none, none, none, none, none, [(gpKey, "2098-05-05T00:00:00Z".toList)]⟩]⟩)
      0 ⟨none, none⟩).1 = .seasonOver := by
  exact ⟨by decide, by decide⟩

/-- The endpoint leaves the cache unchanged or replaces it with a freshly
fetched payload stamped `now`. -/
theorem get_next_race_cache (f : PyStr → Option Int) (i : PyStr → PyStr)
    (fetch : FetchOutcome) (now : Int) (c : CacheState) :
    (get_next_race f i fetch now c).2 = c ∨
    ∃ p, (get_next_race f i fetch now c).2 = ⟨some p, some now⟩ := by
  obtain ⟨cd, ct⟩ := c
  rcases fetch with p | e
  · rcases cd with _ | d0
    · cases ct <;>
        cases h : scanRaces f i now (p.races.getD []) <;>
          simp [get_next_race, get_race_data, h]
    · rcases ct with _ | ts
      · cases h : scanRaces f i now (p.races.getD []) <;>
          simp [get_next_race, get_race_data, h]
      · by_cases hst : now - ts > 3600
        · cases h : scanRaces f i now (p.races.getD []) <;>
            simp [get_next_race, get_race_data, hst, h]
        · cases h : scanRaces f i now (d0.races.getD []) <;>
            simp [get_next_race, get_race_data, hst, h]
  · cases e with
    | http =>
      rcases cd with _ | d0
      · cases ct <;> simp [get_next_race, get_race_data]
      · rcases ct with _ | ts
        · cases h : scanStale f i now (d0.races.getD []) <;>
            simp [get_next_race, get_race_data, h]
        · by_cases hst : now - ts > 3600
          · cases h : scanStale f i now (d0.races.getD []) <;>
              simp [get_next_race, get_race_data, hst, h]
          · cases h : scanRaces f i now (d0.races.getD []) <;>
              simp [get_next_race, get_race_data, hst, h]
    | json =>
      rcases cd with _ | d0
      · cases ct <;> simp [get_next_race, get_race_data]
      · rcases ct with _ | ts
        · simp [get_next_race, get_race_data]
        · by_cases hst : now - ts > 3600
          · simp [get_next_race, get_race_data, hst]
          · cases h : scanRaces f i now (d0.races.getD []) <;>
              simp [get_next_race, get_race_data, hst, h]

/-- C8: every reachable cache state has the payload and the fetch timestamp
both absent or both present — the initial state has both absent, a successful
refresh sets both, a failed refresh changes neither. -/
theorem cache_pairing_invariant (c : CacheState) (h : Reachable c) :
    c.data.isSome = c.timestamp.isSome := by
  induction h with
  | init => rfl
  | step f i fetch now c0 hc ih =>
    rcases get_next_race_cache f i fetch now c0 with h1 | ⟨p, h1⟩
    · rw [h1]
      exact ih
    · rw [h1]
      rfl

/-- Witness for C8 at the initial state. -/
theorem cache_pairing_invariant_witness :
    (⟨none, none⟩ : CacheState).data.isSome = (⟨none, none⟩ : CacheState).timestamp.isSome :=
  cache_pairing_invariant ⟨none, none⟩ Reachable.init
